import Mathlib

/-
Verification of the Schelling segregation model
(src/SchellingSegregationModel.py) against its specification.

Modelling conventions:
* Python objects have identity; an `AgentId : Nat` stands for one object and
  the store `occ : AgentId → AgentData` holds the object's mutable attributes.
* Python floats are modelled as rationals (the program only ever divides small
  integer counts, and `round(q, 4)` is modelled exactly on rationals).
* `random.sample(pool, 2)` picks two distinct positions of the pool; it is
  modelled by a `pick` oracle supplying arbitrary numbers, which are reduced to
  two distinct in-range indices, so theorems quantify over every possible
  random outcome.
* The `while` loop of `Neighborhood.move` is expressed with a fuel argument
  equal to the initial pool length; every iteration removes at least one pool
  element, so the fuel never runs out (the lemmas below carry this invariant).
-/

namespace Schelling

/-- Identity of one Python object (agent or empty lot). -/
abbrev AgentId := Nat

/-- The dispatching class of an agent object: `SchellingAgent` base class,
`EmptyLot`, `LikesSameAgent`, `LikesOthersAgent`, `ContinuousLikesSameAgent`,
`ContinuousLikesOtherAgent`. -/
inductive AKind
  | base
  | emptyLot
  | likesSame
  | likesOthers
  | contLikesSame
  | contLikesOthers
deriving DecidableEq

/-- A Python agent's attribute record.  `mytype` is either a string (discrete
agents and the empty-lot sentinel) or an integer (continuous agents);
`minrange`/`maxrange` exist only on continuous agents and are 0 elsewhere. -/
structure AgentData where
  mytype : String ⊕ Int
  preference : ℚ
  minrange : Int
  maxrange : Int
  neighborRadius : Nat
  x : Int
  y : Int
  kind : AKind
deriving DecidableEq

/-- The module constant `EMPTYLOT = 'Empty'`. -/
def EMPTYLOT : String ⊕ Int := Sum.inl "Empty"

/-- The `Neighborhood` object: dimension, the `lots` grid (cell to occupant
object), the `agents` list, the `unhappyagents` cache and the `runOnce` flag.
`occ` is the object store resolving an identity to the object's attributes. -/
structure Neighborhood where
  dimension : Nat
  lots : Int → Int → AgentId
  occ : AgentId → AgentData
  agents : List AgentId
  unhappyagents : List AgentId
  runOnce : Bool

/-- `Neighborhood.wrap`: adjust a coordinate for the torus. -/
def wrap (s : Neighborhood) (x : Int) : Int :=
  if x < 0 then (s.dimension : Int) + x
  else if x > (s.dimension : Int) - 1 then x - (s.dimension : Int)
  else x

/-- `Neighborhood.getNeighborhood`: the `(2r+1) × (2r+1)` block of occupants
around `(x, y)`, each coordinate wrapped independently; row-major rows. -/
def getNeighborhood (s : Neighborhood) (x y : Int) (radius : Nat) :
    List (List AgentId) :=
  let x_range := (List.range (2 * radius + 1)).map (fun k => wrap s (x - radius + k))
  let y_range := (List.range (2 * radius + 1)).map (fun k => wrap s (y - radius + k))
  x_range.map (fun a => y_range.map (fun b => s.lots a b))

/-- `SchellingAgent.getNeighbors`: flatten the block and drop empty lots and
the agent itself (Python compares object identity). -/
def getNeighbors (s : Neighborhood) (i : AgentId) : List AgentId :=
  let adjoining_lots :=
    getNeighborhood s (s.occ i).x (s.occ i).y (s.occ i).neighborRadius
  (adjoining_lots.flatMap id).filter
    (fun lot => decide ((s.occ lot).mytype ≠ EMPTYLOT ∧ lot ≠ i))

/-- `isMyType`: discrete classes compare `mytype` for equality; continuous
classes test membership of the neighbor's numeric type in the caller's own
`[minrange, maxrange]` (a non-numeric type compares unequal, as in Python 2
where every number sorts below every string). -/
def isMyType (a nb : AgentData) : Bool :=
  match a.kind with
  | AKind.contLikesSame | AKind.contLikesOthers =>
    match nb.mytype with
    | Sum.inr v => decide (a.minrange ≤ v ∧ v ≤ a.maxrange)
    | Sum.inl _ => false
  | _ => decide (nb.mytype = a.mytype)

/-- `SchellingAgent.getSameNeighbors` applied to an explicit neighbor list. -/
def getSameNeighbors (s : Neighborhood) (i : AgentId) (neighbors : List AgentId) :
    List AgentId :=
  neighbors.filter (fun nb => isMyType (s.occ i) (s.occ nb))

/-- `SchellingAgent.countNeighbors`: `(same count, total count)`. -/
def countNeighbors (s : Neighborhood) (i : AgentId) : Nat × Nat :=
  let neighbors := getNeighbors s i
  ((getSameNeighbors s i neighbors).length, neighbors.length)

/-- `SchellingAgent.percentSame` on an explicit neighbor list: `0.0` on an
empty list, otherwise the fraction of like neighbors. -/
def percentSame (s : Neighborhood) (i : AgentId) (neighbors : List AgentId) : ℚ :=
  if neighbors.length = 0 then 0
  else ((getSameNeighbors s i neighbors).length : ℚ) / (neighbors.length : ℚ)

/-- `isUnhappy`, dispatched on the class of the object: the base class and
`EmptyLot` always answer `false`; the likes-same classes compare
`percentSame` with the preference, the likes-others classes compare
`1 - percentSame` with it, and an empty neighbor list means content. -/
def isUnhappy (s : Neighborhood) (i : AgentId) : Bool :=
  match (s.occ i).kind with
  | AKind.base => false
  | AKind.emptyLot => false
  | AKind.likesSame | AKind.contLikesSame =>
    let neighbors := getNeighbors s i
    if neighbors = [] then false
    else decide (percentSame s i neighbors < (s.occ i).preference)
  | AKind.likesOthers | AKind.contLikesOthers =>
    let neighbors := getNeighbors s i
    if neighbors = [] then false
    else decide (1 - percentSame s i neighbors < (s.occ i).preference)

/-- `Neighborhood.putAgent`: append to `agents` and store the object in the
grid cell given by its current coordinates. -/
def putAgent (s : Neighborhood) (i : AgentId) : Neighborhood :=
  { s with
    agents := s.agents ++ [i]
    lots := fun x y => if x = (s.occ i).x ∧ y = (s.occ i).y then i else s.lots x y }

/-- Constructing an agent with explicit coordinates (`SchellingAgent.__init__`
with `coordinates ≠ None`): allocate the object at a fresh identity `i` with
attributes `d` and register it through `putAgent`. -/
def newAgent (s : Neighborhood) (i : AgentId) (d : AgentData) : Neighborhood :=
  putAgent { s with occ := Function.update s.occ i d } i

/-- The list computed by `Neighborhood.getUnhappyAgents`. -/
def unhappyList (s : Neighborhood) : List AgentId :=
  s.agents.filter (fun agent => isUnhappy s agent)

/-- `Neighborhood.getUnhappyAgents` as a state transformer: it stores the
recomputed list in the `unhappyagents` cache (and returns it). -/
def getUnhappyAgents (s : Neighborhood) : Neighborhood :=
  { s with unhappyagents := unhappyList s }

/-- `Neighborhood.percentUnhappy`: uses the cache when `runOnce` is set,
otherwise recomputes. -/
def percentUnhappy (s : Neighborhood) : ℚ :=
  let totalUnhappy :=
    if s.runOnce then s.unhappyagents.length else (unhappyList s).length
  (totalUnhappy : ℚ) / (s.agents.length : ℚ)

/-- `Neighborhood.percentSimilar`: population-weighted aggregate similarity. -/
def percentSimilar (s : Neighborhood) : ℚ :=
  let neighborData := s.agents.map (fun agent => countNeighbors s agent)
  let similar_neighbors := (neighborData.map Prod.fst).sum
  let total_neighbors := (neighborData.map Prod.snd).sum
  (similar_neighbors : ℚ) / (total_neighbors : ℚ)

/-- Python 2 `round(q, 4)` for the nonnegative values produced here
(half rounds away from zero, i.e. up). -/
def round4 (q : ℚ) : ℚ := ((round (q * 10000) : ℤ) : ℚ) / 10000

/-- `Neighborhood.getStats`: both statistics rounded to 4 decimal places. -/
def getStats (s : Neighborhood) : ℚ × ℚ :=
  (round4 (percentUnhappy s), round4 (percentSimilar s))

/-- `Neighborhood.swap`: exchange the coordinates of two objects and store
each at its new cell (the second grid write wins, as in the source). -/
def swap (s : Neighborhood) (i1 i2 : AgentId) : Neighborhood :=
  let a1 := s.occ i1
  let a2 := s.occ i2
  let a1' : AgentData := { a1 with x := a2.x, y := a2.y }
  let a2' : AgentData := { a2 with x := a1.x, y := a1.y }
  { s with
    occ := fun j => if j = i1 then a1' else if j = i2 then a2' else s.occ j
    lots := fun x y =>
      if x = a1.x ∧ y = a1.y then i2
      else if x = a2.x ∧ y = a2.y then i1
      else s.lots x y }

/-- The cells of the grid in row-major order (the iteration order of
`for row in self.lots for lot in row`). -/
def cellList (d : Nat) : List (Int × Int) :=
  ((List.range d).product (List.range d)).map (fun p => ((p.1 : Int), (p.2 : Int)))

/-- The occupants of all cells in row-major order. -/
def gridList (s : Neighborhood) : List AgentId :=
  (cellList s.dimension).map (fun c => s.lots c.1 c.2)

/-- The empty-lot occupants currently in the grid, as collected by
`Neighborhood.move`. -/
def emptyLotsList (s : Neighborhood) : List AgentId :=
  (gridList s).filter (fun lot => decide ((s.occ lot).mytype = EMPTYLOT))

/-- Reduce one oracle draw to two distinct indices below `n` (every unordered
pair of distinct positions, as drawn by `random.sample(pool, 2)`, arises for
some draw). -/
def pickTwo (n : Nat) (c : Nat × Nat) : Nat × Nat :=
  let i := c.1 % n
  let j0 := c.2 % (n - 1)
  (i, if i ≤ j0 then j0 + 1 else j0)

/-- The first element drawn by `sample(places_to_move, 2)` at loop step
`step` (the oracle draw reduced to a valid position). -/
def mover1 (pick : Nat → Nat × Nat) (step : Nat) (places_to_move : List AgentId) :
    AgentId :=
  places_to_move.getD (pickTwo places_to_move.length (pick step)).1 0

/-- The second element drawn by `sample(places_to_move, 2)` at loop step
`step` (always at a position distinct from the first). -/
def mover2 (pick : Nat → Nat × Nat) (step : Nat) (places_to_move : List AgentId) :
    AgentId :=
  places_to_move.getD (pickTwo places_to_move.length (pick step)).2 0

/-- The `while len(places_to_move) >= 2` loop of `Neighborhood.move`: draw two
distinct pool members, remove both (first occurrence, Python `list.remove`),
swap them, repeat.  Also returns the list of performed swaps.  `fuel` bounds
the iteration count; `move` passes the pool length, which always suffices. -/
def moveLoop (pick : Nat → Nat × Nat) : Nat → Nat → List AgentId → Neighborhood →
    Neighborhood × List (AgentId × AgentId)
  | _, 0, _, s => (s, [])
  | step, fuel + 1, places_to_move, s =>
    if 2 ≤ places_to_move.length then
      let m1 := mover1 pick step places_to_move
      let m2 := mover2 pick step places_to_move
      let r := moveLoop pick (step + 1) fuel
        ((places_to_move.erase m1).erase m2) (swap s m1 m2)
      (r.1, (m1, m2) :: r.2)
    else (s, [])

/-- The mobility pool assembled by `Neighborhood.move`: the recomputed unhappy
agents followed by every empty-lot occupant of the grid. -/
def movePool (s : Neighborhood) : List AgentId :=
  unhappyList s ++ emptyLotsList s

/-- `Neighborhood.move`: recompute the unhappy agents (caching them), build
the mobility pool, and run the swapping loop. -/
def move (pick : Nat → Nat × Nat) (s : Neighborhood) : Neighborhood :=
  let s1 := getUnhappyAgents s
  let places_to_move := s1.unhappyagents ++ emptyLotsList s1
  (moveLoop pick 0 places_to_move.length places_to_move s1).1

/-- The swaps performed by one call of `Neighborhood.move`. -/
def moveSwaps (pick : Nat → Nat × Nat) (s : Neighborhood) :
    List (AgentId × AgentId) :=
  (moveLoop pick 0 (movePool s).length (movePool s) (getUnhappyAgents s)).2

/-- One `run` tick uses one slice of the oracle. -/
def runAux (pick : Nat → Nat → Nat × Nat) :
    Neighborhood → Nat → Nat → List (Nat × (ℚ × ℚ))
  | _, 0, _ => []
  | s, n + 1, tick =>
    let stats := getStats s
    (tick, stats) ::
      (if stats.1 = 0 then [] else runAux pick (move (pick tick) s) n (tick + 1))

/-- The `run` driver: record pre-move statistics each tick, advance, stop
early once a recorded `percentUnhappy` is `0.0` or after `ticks` ticks. -/
def run (pick : Nat → Nat → Nat × Nat) (s : Neighborhood) (ticks : Nat) :
    List (Nat × (ℚ × ℚ)) :=
  runAux pick s ticks 0

/-- The state after `k` ticks starting from tick number `t`. -/
def stateFrom (pick : Nat → Nat → Nat × Nat) :
    Neighborhood → Nat → Nat → Neighborhood
  | s, _, 0 => s
  | s, t, k + 1 => stateFrom pick (move (pick t) s) (t + 1) k

/-- The state after `k` calls of `move`, as performed by `run`. -/
def stateAt (pick : Nat → Nat → Nat × Nat) (s : Neighborhood) (k : Nat) :
    Neighborhood :=
  stateFrom pick s 0 k

/-- The attribute record of a fresh `EmptyLot` at `(x, y)`. -/
def emptyLotData (x y : Int) : AgentData :=
  { mytype := EMPTYLOT, preference := 0, minrange := 0, maxrange := 0,
    neighborRadius := 1, x := x, y := y, kind := AKind.emptyLot }

/-- `Neighborhood.__init__`: a `dimension × dimension` grid of fresh empty
lots (identity `x * d + y` for the lot created at `(x, y)`), no agents, an
empty cache, `runOnce = False`. -/
def initNeighborhood (d : Nat) : Neighborhood :=
  { dimension := d
    lots := fun x y =>
      if 0 ≤ x ∧ x < (d : Int) ∧ 0 ≤ y ∧ y < (d : Int) then x.toNat * d + y.toNat
      else 0
    occ := fun i => emptyLotData ((i / d : Nat) : Int) ((i % d : Nat) : Int)
    agents := []
    unhappyagents := []
    runOnce := false }

/-- Attributes of a freshly constructed discrete agent of class `kind`. -/
def discreteAgentData (kind : AKind) (mytype : String ⊕ Int) (preference : ℚ)
    (x y : Int) : AgentData :=
  { mytype := mytype, preference := preference, minrange := 0, maxrange := 0,
    neighborRadius := 1, x := x, y := y, kind := kind }

/-- The error string returned by the split-validation guard. -/
def errSplit : String := "Split values must add to 1.0."

/-- `likesSameNeighborhood`: returns the error string when the splits exceed
`1.0`, otherwise populates a fresh grid cell by cell using the uniform draws
`pickr` (cell `(x, y)` is draw number `x * size + y`; the agent created there
gets object identity `size * size + x * size + y`). -/
def likesSameNeighborhood (pickr : Nat → ℚ) (size : Nat) (preference : ℚ)
    (typeA typeB : String ⊕ Int) (typeASplit typeBSplit : ℚ) :
    String ⊕ Neighborhood :=
  if typeASplit + typeBSplit > 1 then Sum.inl errSplit
  else Sum.inr ((List.range (size * size)).foldl
    (fun st n =>
      let pick := pickr n
      if pick ≤ typeASplit then
        newAgent st (size * size + n)
          (discreteAgentData AKind.likesSame typeA preference
            ((n / size : Nat) : Int) ((n % size : Nat) : Int))
      else if pick ≤ typeASplit + typeBSplit then
        newAgent st (size * size + n)
          (discreteAgentData AKind.likesSame typeB preference
            ((n / size : Nat) : Int) ((n % size : Nat) : Int))
      else st)
    (initNeighborhood size))

/-- `likesOthersNeighborhood`: as `likesSameNeighborhood` but the created
agents are of class `LikesOthersAgent`. -/
def likesOthersNeighborhood (pickr : Nat → ℚ) (size : Nat) (preference : ℚ)
    (typeA typeB : String ⊕ Int) (typeASplit typeBSplit : ℚ) :
    String ⊕ Neighborhood :=
  if typeASplit + typeBSplit > 1 then Sum.inl errSplit
  else Sum.inr ((List.range (size * size)).foldl
    (fun st n =>
      let pick := pickr n
      if pick ≤ typeASplit then
        newAgent st (size * size + n)
          (discreteAgentData AKind.likesOthers typeA preference
            ((n / size : Nat) : Int) ((n % size : Nat) : Int))
      else if pick ≤ typeASplit + typeBSplit then
        newAgent st (size * size + n)
          (discreteAgentData AKind.likesOthers typeB preference
            ((n / size : Nat) : Int) ((n % size : Nat) : Int))
      else st)
    (initNeighborhood size))

/-- The unweighted mean of the per-agent `percentSame` values — the statistic
the specification contrasts with `percentSimilar`. -/
def meanPercentSame (s : Neighborhood) : ℚ :=
  (s.agents.map (fun agent => percentSame s agent (getNeighbors s agent))).sum /
    (s.agents.length : ℚ)

/-- Every cell's occupant records exactly that cell as its coordinates (hence
no occupant object sits at two cells). -/
def posOK (s : Neighborhood) : Prop :=
  ∀ x < s.dimension, ∀ y < s.dimension,
    (s.occ (s.lots (x : Int) (y : Int))).x = (x : Int) ∧
    (s.occ (s.lots (x : Int) (y : Int))).y = (y : Int)

instance (s : Neighborhood) : Decidable (posOK s) := by
  unfold posOK; infer_instance

/-- Well-formed neighborhood: consistent cell coordinates, duplicate-free
agent list, every registered agent stored at its (in-range) cell with a
non-empty type, and every cell holding either a registered agent or an
empty-lot occupant. -/
def WF (s : Neighborhood) : Prop :=
  posOK s ∧
  s.agents.Nodup ∧
  (∀ a ∈ s.agents, ∃ x < s.dimension, ∃ y < s.dimension,
    s.lots (x : Int) (y : Int) = a) ∧
  (∀ a ∈ s.agents, (s.occ a).mytype ≠ EMPTYLOT) ∧
  (∀ x < s.dimension, ∀ y < s.dimension,
    s.lots (x : Int) (y : Int) ∈ s.agents ∨
    (s.occ (s.lots (x : Int) (y : Int))).mytype = EMPTYLOT)

instance (s : Neighborhood) : Decidable (WF s) := by
  unfold WF; infer_instance

/-- An object is stored at some (in-range) cell of the grid. -/
def located (s : Neighborhood) (m : AgentId) : Prop :=
  ∃ x < s.dimension, ∃ y < s.dimension, s.lots (x : Int) (y : Int) = m

/-- Equality of all agent attributes except the coordinates (`swap` changes
nothing but coordinates). -/
def coreEq (a b : AgentData) : Prop :=
  a.mytype = b.mytype ∧ a.preference = b.preference ∧ a.minrange = b.minrange ∧
  a.maxrange = b.maxrange ∧ a.neighborRadius = b.neighborRadius ∧ a.kind = b.kind

/-- A shared example state: a 5×5 grid with two `'X'` likes-same agents at
`(0,0)` and `(0,1)` and one `'O'` likes-same agent at `(0,3)`, all with
preference `1/2`.  Object identities 25, 26, 27 are fresh (the 25 initial
empty lots use 0–24). -/
def exA : Neighborhood :=
  newAgent (newAgent (newAgent (initNeighborhood 5)
    25 (discreteAgentData AKind.likesSame (Sum.inl "X") (1/2) 0 0))
    26 (discreteAgentData AKind.likesSame (Sum.inl "X") (1/2) 0 1))
    27 (discreteAgentData AKind.likesSame (Sum.inl "O") (1/2) 0 3)

lemma coreEq_refl (a : AgentData) : coreEq a a :=
  ⟨rfl, rfl, rfl, rfl, rfl, rfl⟩

lemma coreEq_trans {a b c : AgentData} (h1 : coreEq a b) (h2 : coreEq b c) :
    coreEq a c := by
  obtain ⟨e1, e2, e3, e4, e5, e6⟩ := h1
  obtain ⟨f1, f2, f3, f4, f5, f6⟩ := h2
  exact ⟨e1.trans f1, e2.trans f2, e3.trans f3, e4.trans f4, e5.trans f5,
    e6.trans f6⟩

lemma swap_agents (s : Neighborhood) (i1 i2 : AgentId) :
    (swap s i1 i2).agents = s.agents := rfl

lemma swap_dimension (s : Neighborhood) (i1 i2 : AgentId) :
    (swap s i1 i2).dimension = s.dimension := rfl

lemma swap_runOnce (s : Neighborhood) (i1 i2 : AgentId) :
    (swap s i1 i2).runOnce = s.runOnce := rfl

lemma swap_unhappyagents (s : Neighborhood) (i1 i2 : AgentId) :
    (swap s i1 i2).unhappyagents = s.unhappyagents := rfl

lemma swap_occ_coreEq (s : Neighborhood) (i1 i2 : AgentId) (j : AgentId) :
    coreEq ((swap s i1 i2).occ j) (s.occ j) := by
  unfold swap coreEq
  dsimp only
  split_ifs with h1 h2
  · subst h1; exact ⟨rfl, rfl, rfl, rfl, rfl, rfl⟩
  · subst h2; exact ⟨rfl, rfl, rfl, rfl, rfl, rfl⟩
  · exact ⟨rfl, rfl, rfl, rfl, rfl, rfl⟩

lemma swap_occ_of_ne (s : Neighborhood) (i1 i2 : AgentId) (j : AgentId)
    (h1 : j ≠ i1) (h2 : j ≠ i2) : (swap s i1 i2).occ j = s.occ j := by
  unfold swap
  dsimp only
  rw [if_neg h1, if_neg h2]

lemma moveLoop_zero (pick : Nat → Nat × Nat) (step : Nat) (pool : List AgentId)
    (s : Neighborhood) : moveLoop pick step 0 pool s = (s, []) := rfl

lemma moveLoop_succ_pos (pick : Nat → Nat × Nat) (step fuel : Nat)
    (pool : List AgentId) (s : Neighborhood) (h : 2 ≤ pool.length) :
    moveLoop pick step (fuel + 1) pool s =
      ((moveLoop pick (step + 1) fuel
          ((pool.erase (mover1 pick step pool)).erase (mover2 pick step pool))
          (swap s (mover1 pick step pool) (mover2 pick step pool))).1,
        (mover1 pick step pool, mover2 pick step pool) ::
          (moveLoop pick (step + 1) fuel
            ((pool.erase (mover1 pick step pool)).erase (mover2 pick step pool))
            (swap s (mover1 pick step pool) (mover2 pick step pool))).2) := by
  simp only [moveLoop]
  rw [if_pos h]

lemma moveLoop_succ_neg (pick : Nat → Nat × Nat) (step fuel : Nat)
    (pool : List AgentId) (s : Neighborhood) (h : ¬ 2 ≤ pool.length) :
    moveLoop pick step (fuel + 1) pool s = (s, []) := by
  simp only [moveLoop]
  rw [if_neg h]

/-- `moveLoop` never touches the agent list, the dimension, the `runOnce`
flag, the `unhappyagents` cache, or any attribute of any object other than
its coordinates. -/
lemma moveLoop_const (pick : Nat → Nat × Nat) :
    ∀ fuel step pool s,
      (moveLoop pick step fuel pool s).1.agents = s.agents ∧
      (moveLoop pick step fuel pool s).1.dimension = s.dimension ∧
      (moveLoop pick step fuel pool s).1.runOnce = s.runOnce ∧
      (moveLoop pick step fuel pool s).1.unhappyagents = s.unhappyagents ∧
      (∀ j, coreEq ((moveLoop pick step fuel pool s).1.occ j) (s.occ j)) := by
  intro fuel
  induction fuel with
  | zero => intro step pool s; exact ⟨rfl, rfl, rfl, rfl, fun j => coreEq_refl _⟩
  | succ fuel ih =>
    intro step pool s
    by_cases h : 2 ≤ pool.length
    · rw [moveLoop_succ_pos pick step fuel pool s h]
      obtain ⟨h1, h2, h3, h4, h5⟩ := ih (step + 1)
        ((pool.erase (mover1 pick step pool)).erase (mover2 pick step pool))
        (swap s (mover1 pick step pool) (mover2 pick step pool))
      refine ⟨h1.trans (swap_agents ..), h2.trans (swap_dimension ..),
        h3.trans (swap_runOnce ..), h4.trans (swap_unhappyagents ..), fun j => ?_⟩
      exact coreEq_trans (h5 j) (swap_occ_coreEq ..)
    · rw [moveLoop_succ_neg pick step fuel pool s h]
      exact ⟨rfl, rfl, rfl, rfl, fun j => coreEq_refl _⟩

lemma pickTwo_spec (n : Nat) (c : Nat × Nat) (h : 2 ≤ n) :
    (pickTwo n c).1 < n ∧ (pickTwo n c).2 < n ∧
    (pickTwo n c).1 ≠ (pickTwo n c).2 := by
  unfold pickTwo
  have hi : c.1 % n < n := Nat.mod_lt _ (by omega)
  have hj : c.2 % (n - 1) < n - 1 := Nat.mod_lt _ (by omega)
  dsimp only
  split_ifs with hle <;> refine ⟨hi, ?_, ?_⟩ <;> omega

lemma mover1_mem (pick : Nat → Nat × Nat) (step : Nat) (pool : List AgentId)
    (h : 2 ≤ pool.length) : mover1 pick step pool ∈ pool := by
  unfold mover1
  rw [List.getD_eq_get _ _ ((pickTwo_spec pool.length (pick step) h).1)]
  exact List.get_mem ..

lemma mover2_mem (pick : Nat → Nat × Nat) (step : Nat) (pool : List AgentId)
    (h : 2 ≤ pool.length) : mover2 pick step pool ∈ pool := by
  unfold mover2
  rw [List.getD_eq_get _ _ ((pickTwo_spec pool.length (pick step) h).2.1)]
  exact List.get_mem ..

lemma mover1_ne_mover2 (pick : Nat → Nat × Nat) (step : Nat)
    (pool : List AgentId) (h : 2 ≤ pool.length) (hnd : pool.Nodup) :
    mover1 pick step pool ≠ mover2 pick step pool := by
  unfold mover1 mover2
  obtain ⟨h1, h2, h3⟩ := pickTwo_spec pool.length (pick step) h
  rw [List.getD_eq_get _ _ h1, List.getD_eq_get _ _ h2]
  intro heq
  exact h3 (Fin.mk.injEq .. ▸ (List.nodup_iff_injective_get.mp hnd heq))

lemma mem_cellList {d : Nat} {c : Int × Int} :
    c ∈ cellList d ↔ ∃ x < d, ∃ y < d, c = ((x : Int), (y : Int)) := by
  unfold cellList
  rw [List.mem_map]
  constructor
  · rintro ⟨⟨px, py⟩, hp, rfl⟩
    rw [List.pair_mem_product, List.mem_range, List.mem_range] at hp
    exact ⟨px, hp.1, py, hp.2, rfl⟩
  · rintro ⟨x, hx, y, hy, rfl⟩
    exact ⟨(x, y), List.pair_mem_product.mpr
      ⟨List.mem_range.mpr hx, List.mem_range.mpr hy⟩, rfl⟩

lemma cellList_nodup (d : Nat) : (cellList d).Nodup := by
  unfold cellList
  refine List.Nodup.map ?_ ((List.nodup_range d).product (List.nodup_range d))
  intro p q h
  simp only [Prod.mk.injEq, Int.natCast_inj] at h
  exact Prod.ext h.1 h.2

lemma located_iff_mem_gridList {s : Neighborhood} {m : AgentId} :
    located s m ↔ m ∈ gridList s := by
  unfold located gridList
  rw [List.mem_map]
  constructor
  · rintro ⟨x, hx, y, hy, h⟩
    exact ⟨((x : Int), (y : Int)), mem_cellList.mpr ⟨x, hx, y, hy, rfl⟩, h⟩
  · rintro ⟨c, hc, h⟩
    obtain ⟨x, hx, y, hy, rfl⟩ := mem_cellList.mp hc
    exact ⟨x, hx, y, hy, h⟩

lemma gridList_nodup {s : Neighborhood} (h : posOK s) : (gridList s).Nodup := by
  unfold gridList
  refine List.Nodup.map_on ?_ (cellList_nodup _)
  intro c hc c' hc' heq
  obtain ⟨x, hx, y, hy, rfl⟩ := mem_cellList.mp hc
  obtain ⟨x', hx', y', hy', rfl⟩ := mem_cellList.mp hc'
  obtain ⟨e1, e2⟩ := h x hx y hy
  obtain ⟨e1', e2'⟩ := h x' hx' y' hy'
  rw [heq] at e1 e2
  rw [e1'] at e1
  rw [e2'] at e2
  rw [Prod.mk.injEq]
  exact ⟨e1.symm, e2.symm⟩

/-- Mapping two swapped values over a duplicate-free list permutes the
image. -/
lemma map_swap_perm {α β : Type} [DecidableEq α] (l : List α) (f g : α → β)
    (p1 p2 : α) (hl : l.Nodup) (hp1 : p1 ∈ l) (hp2 : p2 ∈ l) (hne : p1 ≠ p2)
    (h1 : g p1 = f p2) (h2 : g p2 = f p1)
    (h3 : ∀ q, q ≠ p1 → q ≠ p2 → g q = f q) :
    (l.map g).Perm (l.map f) := by
  have e1 : l.Perm (p1 :: l.erase p1) := List.perm_cons_erase hp1
  have hp2' : p2 ∈ l.erase p1 := (hl.mem_erase_iff).mpr ⟨hne.symm, hp2⟩
  have e2 : (l.erase p1).Perm (p2 :: (l.erase p1).erase p2) :=
    List.perm_cons_erase hp2'
  have hrest : ∀ q ∈ (l.erase p1).erase p2, q ≠ p1 ∧ q ≠ p2 := by
    intro q hq
    have hq1 : q ∈ l.erase p1 := (List.erase_sublist p2 (l.erase p1)).mem hq
    constructor
    · intro hqp; rw [hqp] at hq1; exact hl.not_mem_erase hq1
    · intro hqp; rw [hqp] at hq; exact (hl.erase p1).not_mem_erase hq
  have hmapeq : ((l.erase p1).erase p2).map g = ((l.erase p1).erase p2).map f := by
    apply List.map_congr_left
    intro q hq
    exact h3 q (hrest q hq).1 (hrest q hq).2
  have eg : (l.map g).Perm (g p1 :: g p2 :: ((l.erase p1).erase p2).map g) :=
    (e1.map g).trans (List.Perm.cons _ (e2.map g))
  have ef : (l.map f).Perm (f p1 :: f p2 :: ((l.erase p1).erase p2).map f) :=
    (e1.map f).trans (List.Perm.cons _ (e2.map f))
  refine eg.trans (.trans ?_ ef.symm)
  rw [h1, h2, hmapeq]
  exact List.Perm.swap _ _ _

/-- Swapping two objects that sit at (necessarily distinct) grid cells keeps
every cell's occupant consistent with its recorded coordinates, permutes the
row-major occupant list, keeps every other object located, and only rewrites
the two cells involved. -/
lemma swap_main (s : Neighborhood) (m1 m2 : AgentId) (hpos : posOK s)
    (h1 : located s m1) (h2 : located s m2) (hne : m1 ≠ m2) :
    posOK (swap s m1 m2) ∧
    (gridList (swap s m1 m2)).Perm (gridList s) ∧
    (∀ m, m ≠ m1 → m ≠ m2 → located s m → located (swap s m1 m2) m) ∧
    located (swap s m1 m2) m1 ∧
    located (swap s m1 m2) m2 ∧
    (∀ x y : Int, (swap s m1 m2).lots x y = s.lots x y ∨
      (((swap s m1 m2).lots x y = m1 ∨ (swap s m1 m2).lots x y = m2) ∧
        (s.lots x y = m1 ∨ s.lots x y = m2))) := by
  obtain ⟨x1, hx1, y1, hy1, hl1⟩ := h1
  obtain ⟨x2, hx2, y2, hy2, hl2⟩ := h2
  have hc1 := hpos x1 hx1 y1 hy1
  have hc2 := hpos x2 hx2 y2 hy2
  rw [hl1] at hc1
  rw [hl2] at hc2
  have hcells : ¬ (x1 = x2 ∧ y1 = y2) := by
    rintro ⟨rfl, rfl⟩
    rw [hl1] at hl2
    exact hne hl2
  have hlots : ∀ x y : Int, (swap s m1 m2).lots x y =
      if x = (x1 : Int) ∧ y = (y1 : Int) then m2
      else if x = (x2 : Int) ∧ y = (y2 : Int) then m1
      else s.lots x y := by
    intro x y
    show (if x = (s.occ m1).x ∧ y = (s.occ m1).y then m2
      else if x = (s.occ m2).x ∧ y = (s.occ m2).y then m1
      else s.lots x y) = _
    rw [hc1.1, hc1.2, hc2.1, hc2.2]
  have hoccm1 : ((swap s m1 m2).occ m1).x = (x2 : Int) ∧
      ((swap s m1 m2).occ m1).y = (y2 : Int) := by
    show ((if m1 = m1 then _ else _ : AgentData)).x = _ ∧
      ((if m1 = m1 then _ else _ : AgentData)).y = _
    rw [if_pos rfl]
    exact ⟨hc2.1, hc2.2⟩
  have hoccm2 : ((swap s m1 m2).occ m2).x = (x1 : Int) ∧
      ((swap s m1 m2).occ m2).y = (y1 : Int) := by
    show ((if m2 = m1 then _ else _ : AgentData)).x = _ ∧
      ((if m2 = m1 then _ else _ : AgentData)).y = _
    rw [if_neg hne.symm, if_pos rfl]
    exact ⟨hc1.1, hc1.2⟩
  have hnotm1 : ∀ (x y : Nat), x < s.dimension → y < s.dimension →
      ¬ (x = x1 ∧ y = y1) → s.lots (x : Int) (y : Int) ≠ m1 := by
    intro x y hx hy hxy heq
    have := hpos x hx y hy
    rw [heq, hc1.1, hc1.2] at this
    have ex : x1 = x := by exact_mod_cast this.1
    have ey : y1 = y := by exact_mod_cast this.2
    exact hxy ⟨ex.symm, ey.symm⟩
  have hnotm2 : ∀ (x y : Nat), x < s.dimension → y < s.dimension →
      ¬ (x = x2 ∧ y = y2) → s.lots (x : Int) (y : Int) ≠ m2 := by
    intro x y hx hy hxy heq
    have := hpos x hx y hy
    rw [heq, hc2.1, hc2.2] at this
    have ex : x2 = x := by exact_mod_cast this.1
    have ey : y2 = y := by exact_mod_cast this.2
    exact hxy ⟨ex.symm, ey.symm⟩
  refine ⟨?_, ?_, ?_, ?_, ?_, ?_⟩
  · intro x hx y hy
    rw [hlots]
    by_cases e1 : (x : Int) = (x1 : Int) ∧ (y : Int) = (y1 : Int)
    · rw [if_pos e1, hoccm2.1, hoccm2.2]
      exact ⟨e1.1.symm, e1.2.symm⟩
    · by_cases e2 : (x : Int) = (x2 : Int) ∧ (y : Int) = (y2 : Int)
      · rw [if_neg e1, if_pos e2, hoccm1.1, hoccm1.2]
        exact ⟨e2.1.symm, e2.2.symm⟩
      · rw [if_neg e1, if_neg e2]
        have hm1 : s.lots (x : Int) (y : Int) ≠ m1 := by
          refine hnotm1 x y hx hy ?_
          rintro ⟨rfl, rfl⟩
          exact e1 ⟨rfl, rfl⟩
        have hm2 : s.lots (x : Int) (y : Int) ≠ m2 := by
          refine hnotm2 x y hx hy ?_
          rintro ⟨rfl, rfl⟩
          exact e2 ⟨rfl, rfl⟩
        rw [swap_occ_of_ne s m1 m2 _ hm1 hm2]
        exact hpos x hx y hy
  · show ((cellList s.dimension).map
        (fun c => (swap s m1 m2).lots c.1 c.2)).Perm
      ((cellList s.dimension).map (fun c => s.lots c.1 c.2))
    refine map_swap_perm (cellList s.dimension) (fun c => s.lots c.1 c.2)
      (fun c => (swap s m1 m2).lots c.1 c.2)
      ((x1 : Int), (y1 : Int)) ((x2 : Int), (y2 : Int)) (cellList_nodup _)
      (mem_cellList.mpr ⟨x1, hx1, y1, hy1, rfl⟩)
      (mem_cellList.mpr ⟨x2, hx2, y2, hy2, rfl⟩) ?_ ?_ ?_ ?_
    · intro hp
      rw [Prod.mk.injEq, Int.natCast_inj, Int.natCast_inj] at hp
      exact hcells hp
    · dsimp only
      rw [hlots, if_pos ⟨rfl, rfl⟩]
      exact hl2.symm
    · have : ¬ ((x2 : Int) = (x1 : Int) ∧ (y2 : Int) = (y1 : Int)) := by
        rw [Int.natCast_inj, Int.natCast_inj]
        rintro ⟨rfl, rfl⟩
        exact hcells ⟨rfl, rfl⟩
      dsimp only
      rw [hlots, if_neg this, if_pos ⟨rfl, rfl⟩]
      exact hl1.symm
    · rintro ⟨qx, qy⟩ hq1 hq2
      dsimp only
      rw [hlots]
      rw [if_neg ?_, if_neg ?_]
      · rintro ⟨rfl, rfl⟩
        exact hq2 rfl
      · rintro ⟨rfl, rfl⟩
        exact hq1 rfl
  · rintro m hm1 hm2 ⟨x, hx, y, hy, hm⟩
    refine ⟨x, hx, y, hy, ?_⟩
    rw [hlots]
    rw [if_neg ?_, if_neg ?_]
    · exact hm
    · rintro ⟨ex, ey⟩
      rw [Int.natCast_inj] at ex ey
      rw [ex, ey] at hm
      rw [hl2] at hm
      exact hm2 hm.symm
    · rintro ⟨ex, ey⟩
      rw [Int.natCast_inj] at ex ey
      rw [ex, ey] at hm
      rw [hl1] at hm
      exact hm1 hm.symm
  · refine ⟨x2, hx2, y2, hy2, ?_⟩
    have : ¬ ((x2 : Int) = (x1 : Int) ∧ (y2 : Int) = (y1 : Int)) := by
      rw [Int.natCast_inj, Int.natCast_inj]
      rintro ⟨rfl, rfl⟩
      exact hcells ⟨rfl, rfl⟩
    rw [hlots, if_neg this, if_pos ⟨rfl, rfl⟩]
  · exact ⟨x1, hx1, y1, hy1, by rw [hlots, if_pos ⟨rfl, rfl⟩]⟩
  · intro x y
    rw [hlots]
    by_cases e1 : x = (x1 : Int) ∧ y = (y1 : Int)
    · rw [if_pos e1]
      right
      refine ⟨Or.inr rfl, Or.inl ?_⟩
      rw [e1.1, e1.2]
      exact hl1
    · by_cases e2 : x = (x2 : Int) ∧ y = (y2 : Int)
      · rw [if_neg e1, if_pos e2]
        right
        refine ⟨Or.inl rfl, Or.inr ?_⟩
        rw [e2.1, e2.2]
        exact hl2
      · rw [if_neg e1, if_neg e2]
        left
        rfl

/-- Counting the unswapped members: dropping the two freshly swapped members
from the pool and from the participant list keeps the count, which then
follows from the recursive case. -/
lemma filter_count_aux {m1 m2 : AgentId} {pool pool' parts : List AgentId}
    (hnm1 : ∀ a ∈ pool', a ≠ m1) (hnm2 : ∀ a ∈ pool', a ≠ m2)
    (hI : (pool'.filter (fun m => decide (m ∉ parts))).length =
      pool'.length % 2)
    (hlen : pool'.length = pool.length - 2) (h2 : 2 ≤ pool.length) :
    ((m1 :: m2 :: pool').filter
      (fun m => decide (m ∉ m1 :: m2 :: parts))).length = pool.length % 2 := by
  have hPm1 : (decide (m1 ∉ m1 :: m2 :: parts)) = false := by
    simp only [decide_eq_false_iff_not, not_not]
    exact List.mem_cons_self _ _
  have hPm2 : (decide (m2 ∉ m1 :: m2 :: parts)) = false := by
    simp only [decide_eq_false_iff_not, not_not]
    exact List.mem_cons_of_mem _ (List.mem_cons_self _ _)
  rw [List.filter_cons, List.filter_cons]
  simp only [hPm1, hPm2, Bool.false_eq_true, if_false]
  have key : ∀ m ∈ pool',
      (fun m => decide (m ∉ m1 :: m2 :: parts)) m =
      (fun m => decide (m ∉ parts)) m := by
    intro m hm
    apply decide_eq_decide.mpr
    constructor
    · intro hc hd
      exact hc (List.mem_cons_of_mem _ (List.mem_cons_of_mem _ hd))
    · intro hc hd
      rcases List.mem_cons.mp hd with h | hd2
      · exact hnm1 m hm h
      · rcases List.mem_cons.mp hd2 with h | hd3
        · exact hnm2 m hm h
        · exact hc hd3
  rw [List.filter_congr key, hI, hlen]
  omega

/-- Behaviour of the whole swapping loop on a duplicate-free pool of located
objects: cell/coordinate consistency is preserved, the row-major occupant
list is permuted, objects outside the pool are untouched, exactly
`⌊pool/2⌋` swaps are performed, the swapped objects are pool members, none
is swapped twice, the number of unswapped pool members is `pool % 2`, and a
cell changes only if its old and new occupants are both pool members. -/
lemma moveLoop_main (pick : Nat → Nat × Nat) :
    ∀ fuel step pool s, pool.length ≤ fuel → pool.Nodup → posOK s →
      (∀ m ∈ pool, located s m) →
      posOK (moveLoop pick step fuel pool s).1 ∧
      (gridList (moveLoop pick step fuel pool s).1).Perm (gridList s) ∧
      (∀ j, j ∉ pool → (moveLoop pick step fuel pool s).1.occ j = s.occ j) ∧
      (moveLoop pick step fuel pool s).2.length = pool.length / 2 ∧
      (∀ p ∈ (moveLoop pick step fuel pool s).2, p.1 ∈ pool ∧ p.2 ∈ pool) ∧
      ((moveLoop pick step fuel pool s).2.flatMap
        (fun p => [p.1, p.2])).Nodup ∧
      (pool.filter (fun m => decide (m ∉ (moveLoop pick step fuel pool s).2.flatMap
        (fun p => [p.1, p.2])))).length = pool.length % 2 ∧
      (∀ x y : Int, (moveLoop pick step fuel pool s).1.lots x y = s.lots x y ∨
        ((moveLoop pick step fuel pool s).1.lots x y ∈ pool ∧
          s.lots x y ∈ pool)) := by
  intro fuel
  induction fuel with
  | zero =>
    intro step pool s hfuel hnd hpos hloc
    have hnil : pool = [] := List.length_eq_zero.mp (Nat.le_zero.mp hfuel)
    subst hnil
    refine ⟨hpos, List.Perm.refl _, fun j _ => rfl, rfl, ?_, List.nodup_nil,
      rfl, fun x y => Or.inl rfl⟩
    intro p hp
    exact absurd hp (List.not_mem_nil p)
  | succ fuel ih =>
    intro step pool s hfuel hnd hpos hloc
    by_cases h2 : 2 ≤ pool.length
    · rw [moveLoop_succ_pos pick step fuel pool s h2]
      have hm1 : mover1 pick step pool ∈ pool := mover1_mem pick step pool h2
      have hm2 : mover2 pick step pool ∈ pool := mover2_mem pick step pool h2
      have hne : mover1 pick step pool ≠ mover2 pick step pool :=
        mover1_ne_mover2 pick step pool h2 hnd
      have hm2e : mover2 pick step pool ∈ pool.erase (mover1 pick step pool) :=
        hnd.mem_erase_iff.mpr ⟨hne.symm, hm2⟩
      have hsub : ∀ a, a ∈ (pool.erase (mover1 pick step pool)).erase
          (mover2 pick step pool) → a ∈ pool := by
        intro a ha
        exact (List.erase_sublist _ _).mem
          ((List.erase_sublist _ _).mem ha)
      have hnm1 : ∀ a, a ∈ (pool.erase (mover1 pick step pool)).erase
          (mover2 pick step pool) → a ≠ mover1 pick step pool := by
        intro a ha heq
        subst heq
        exact hnd.not_mem_erase ((List.erase_sublist _ _).mem ha)
      have hnm2 : ∀ a, a ∈ (pool.erase (mover1 pick step pool)).erase
          (mover2 pick step pool) → a ≠ mover2 pick step pool := by
        intro a ha heq
        subst heq
        exact (hnd.erase _).not_mem_erase ha
      have hlen1 : (pool.erase (mover1 pick step pool)).length =
          pool.length - 1 := List.length_erase_of_mem hm1
      have hlen2 : ((pool.erase (mover1 pick step pool)).erase
          (mover2 pick step pool)).length = pool.length - 2 := by
        rw [List.length_erase_of_mem hm2e, hlen1]
        omega
      obtain ⟨SW1, SW2, SW3, SW4, SW5, SW6⟩ :=
        swap_main s (mover1 pick step pool) (mover2 pick step pool) hpos
          (hloc _ hm1) (hloc _ hm2) hne
      obtain ⟨I1, I2, I3, I4, I5, I6, I7, I8⟩ := ih (step + 1)
        ((pool.erase (mover1 pick step pool)).erase (mover2 pick step pool))
        (swap s (mover1 pick step pool) (mover2 pick step pool))
        (by omega) ((hnd.erase _).erase _) SW1
        (fun m hm => SW3 m (hnm1 m hm) (hnm2 m hm) (hloc m (hsub m hm)))
      have hparts : ∀ q, q ∈ (moveLoop pick (step + 1) fuel
          ((pool.erase (mover1 pick step pool)).erase (mover2 pick step pool))
          (swap s (mover1 pick step pool) (mover2 pick step pool))).2.flatMap
            (fun p => [p.1, p.2]) →
          q ∈ (pool.erase (mover1 pick step pool)).erase
            (mover2 pick step pool) := by
        intro q hq
        rw [List.mem_flatMap] at hq
        obtain ⟨p, hp, hqp⟩ := hq
        simp only [List.mem_cons, List.not_mem_nil, or_false] at hqp
        rcases hqp with h | h
        · rw [h]
          exact (I5 p hp).1
        · rw [h]
          exact (I5 p hp).2
      refine ⟨I1, I2.trans SW2, ?_, ?_, ?_, ?_, ?_, ?_⟩
      · intro j hj
        have hj1 : j ∉ (pool.erase (mover1 pick step pool)).erase
            (mover2 pick step pool) := fun hc => hj (hsub j hc)
        have hjm1 : j ≠ mover1 pick step pool := fun hc => hj (hc ▸ hm1)
        have hjm2 : j ≠ mover2 pick step pool := fun hc => hj (hc ▸ hm2)
        rw [I3 j hj1, swap_occ_of_ne s _ _ j hjm1 hjm2]
      · show _ + 1 = pool.length / 2
        rw [I4, hlen2]
        omega
      · intro p hp
        rcases List.mem_cons.mp hp with h | h
        · rw [h]
          exact ⟨hm1, hm2⟩
        · exact ⟨hsub _ (I5 p h).1, hsub _ (I5 p h).2⟩
      · show (mover1 pick step pool :: mover2 pick step pool :: _).Nodup
        rw [List.nodup_cons, List.nodup_cons]
        refine ⟨?_, ?_, I6⟩
        · rw [List.mem_cons]
          rintro (h | h)
          · exact hne h
          · exact hnm1 _ (hparts _ h) rfl
        · intro h
          exact hnm2 _ (hparts _ h) rfl
      · have hperm : pool.Perm (mover1 pick step pool ::
            mover2 pick step pool ::
            (pool.erase (mover1 pick step pool)).erase
              (mover2 pick step pool)) :=
          (List.perm_cons_erase hm1).trans
            ((List.perm_cons_erase hm2e).cons _)
        have hbig : ((mover1 pick step pool, mover2 pick step pool) ::
            (moveLoop pick (step + 1) fuel
              ((pool.erase (mover1 pick step pool)).erase
                (mover2 pick step pool))
              (swap s (mover1 pick step pool)
                (mover2 pick step pool))).2).flatMap (fun p => [p.1, p.2]) =
            mover1 pick step pool :: mover2 pick step pool ::
            ((moveLoop pick (step + 1) fuel
              ((pool.erase (mover1 pick step pool)).erase
                (mover2 pick step pool))
              (swap s (mover1 pick step pool)
                (mover2 pick step pool))).2).flatMap (fun p => [p.1, p.2]) := by
          simp [List.flatMap_cons]
        rw [hbig]
        rw [(hperm.filter _).length_eq]
        exact filter_count_aux hnm1 hnm2 I7 hlen2 h2
      · intro x y
        rcases I8 x y with h | ⟨ha, hb⟩
        · rw [h]
          rcases SW6 x y with h' | ⟨ha', hb'⟩
          · exact Or.inl h'
          · refine Or.inr ⟨?_, ?_⟩
            · rcases ha' with h'' | h'' <;> rw [h'']
              · exact hm1
              · exact hm2
            · rcases hb' with h'' | h'' <;> rw [h'']
              · exact hm1
              · exact hm2
        · refine Or.inr ⟨hsub _ ha, ?_⟩
          rcases SW6 x y with h' | ⟨ha', hb'⟩
          · rw [h'] at hb
            exact hsub _ hb
          · rcases hb' with h'' | h'' <;> rw [h'']
            · exact hm1
            · exact hm2
    · rw [moveLoop_succ_neg pick step fuel pool s h2]
      refine ⟨hpos, List.Perm.refl _, fun j _ => rfl, ?_, ?_, List.nodup_nil,
        ?_, fun x y => Or.inl rfl⟩
      · show 0 = pool.length / 2
        omega
      · intro p hp
        exact absurd hp (List.not_mem_nil p)
      · have : (pool.filter (fun m =>
            decide (m ∉ (([] : List (AgentId × AgentId)).flatMap
              (fun p => [p.1, p.2]))))) = pool := by
          apply List.filter_eq_self.mpr
          intro a _
          simp
        rw [this]
        omega

/-- The mobility pool of a well-formed state has no duplicate object. -/
lemma movePool_nodup {s : Neighborhood} (h : WF s) : (movePool s).Nodup := by
  obtain ⟨hpos, hnd, hlocs, htype, hcell⟩ := h
  unfold movePool unhappyList emptyLotsList
  refine List.Nodup.append (hnd.filter _) ((gridList_nodup hpos).filter _) ?_
  rw [List.disjoint_left]
  intro a ha hb
  have h1 : (s.occ a).mytype ≠ EMPTYLOT := htype a (List.mem_of_mem_filter ha)
  have h2 : (s.occ a).mytype = EMPTYLOT :=
    of_decide_eq_true (List.mem_filter.mp hb).2
  exact h1 h2

/-- Every member of the mobility pool of a well-formed state is stored at a
grid cell. -/
lemma movePool_located {s : Neighborhood} (h : WF s) :
    ∀ m ∈ movePool s, located s m := by
  obtain ⟨hpos, hnd, hlocs, htype, hcell⟩ := h
  intro m hm
  rcases List.mem_append.mp hm with h1 | h1
  · exact hlocs m (List.mem_of_mem_filter h1)
  · exact located_iff_mem_gridList.mpr (List.mem_of_mem_filter h1)

/-- C1: on a well-formed state, one `move` keeps the state well-formed (every
cell holds an occupant consistent with its coordinates, so no occupant sits
at two cells), permutes the multiset of occupants over the cells, and leaves
the agents collection unchanged. -/
theorem c1_move_preserves_occupants (pick : Nat → Nat × Nat) (s : Neighborhood)
    (h : WF s) :
    WF (move pick s) ∧ (gridList (move pick s)).Perm (gridList s) ∧
    (move pick s).agents = s.agents := by
  have hWF := h
  obtain ⟨hpos, hnd, hlocs, htype, hcell⟩ := h
  obtain ⟨M1, M2, M3, M4, M5, M6, M7, M8⟩ :=
    moveLoop_main pick (movePool s).length 0 (movePool s) (getUnhappyAgents s)
      le_rfl (movePool_nodup hWF) hpos (movePool_located hWF)
  have hagents : (move pick s).agents = s.agents :=
    (moveLoop_const pick (movePool s).length 0 (movePool s)
      (getUnhappyAgents s)).1
  have hcore : ∀ j, coreEq ((move pick s).occ j) (s.occ j) :=
    (moveLoop_const pick (movePool s).length 0 (movePool s)
      (getUnhappyAgents s)).2.2.2.2
  have hperm : (gridList (move pick s)).Perm (gridList s) := M2
  have hposM : posOK (move pick s) := M1
  refine ⟨⟨hposM, ?_, ?_, ?_, ?_⟩, hperm, hagents⟩
  · rw [hagents]
    exact hnd
  · intro a ha
    rw [hagents] at ha
    exact located_iff_mem_gridList.mpr
      (hperm.mem_iff.mpr (located_iff_mem_gridList.mp (hlocs a ha)))
  · intro a ha
    rw [hagents] at ha
    rw [(hcore a).1]
    exact htype a ha
  · intro x hx y hy
    have hmem : (move pick s).lots (x : Int) (y : Int) ∈ gridList (move pick s) :=
      located_iff_mem_gridList.mp ⟨x, hx, y, hy, rfl⟩
    obtain ⟨x0, hx0, y0, hy0, hl0⟩ :=
      located_iff_mem_gridList.mpr (hperm.mem_iff.mp hmem)
    rcases hcell x0 hx0 y0 hy0 with hc | hc
    · rw [hl0] at hc
      rw [hagents]
      exact Or.inl hc
    · rw [hl0] at hc
      right
      rw [(hcore _).1]
      exact hc

/-- Witness for C1 on the concrete example grid. -/
theorem c1_move_preserves_occupants_witness :
    WF exA ∧ (move (fun _ => (0, 0)) exA).agents = exA.agents :=
  ⟨by decide, (c1_move_preserves_occupants (fun _ => (0, 0)) exA (by decide)).2.2⟩

/-- C3: with `n` the size of the mobility pool assembled by `move`, exactly
`⌊n/2⌋` swaps take place, every swapped occupant is a pool member, no pool
member is swapped twice, and the number of pool members left unswapped is
`n % 2` — one when `n` is odd, none when it is even. -/
theorem c3_move_swap_accounting (pick : Nat → Nat × Nat) (s : Neighborhood)
    (h : WF s) :
    (moveSwaps pick s).length = (movePool s).length / 2 ∧
    (∀ p ∈ moveSwaps pick s, p.1 ∈ movePool s ∧ p.2 ∈ movePool s) ∧
    ((moveSwaps pick s).flatMap (fun p => [p.1, p.2])).Nodup ∧
    ((movePool s).filter (fun m => decide
      (m ∉ (moveSwaps pick s).flatMap (fun p => [p.1, p.2])))).length =
      (movePool s).length % 2 := by
  have hWF := h
  obtain ⟨hpos, hnd, hlocs, htype, hcell⟩ := h
  obtain ⟨M1, M2, M3, M4, M5, M6, M7, M8⟩ :=
    moveLoop_main pick (movePool s).length 0 (movePool s) (getUnhappyAgents s)
      le_rfl (movePool_nodup hWF) hpos (movePool_located hWF)
  exact ⟨M4, M5, M6, M7⟩

/-- Witness for C3 on the concrete example grid. -/
theorem c3_move_swap_accounting_witness :
    WF exA ∧
    (moveSwaps (fun _ => (0, 0)) exA).length = (movePool exA).length / 2 :=
  ⟨by decide, (c3_move_swap_accounting (fun _ => (0, 0)) exA (by decide)).1⟩

lemma flatMap_id_eq_flatten {α : Type} (l : List (List α)) :
    l.flatMap id = l.flatten := by
  induction l with
  | nil => rfl
  | cons a l ih => simp [List.flatMap_cons, List.flatten_cons, ih]

/-- Filtering the images of two functions that agree except at filtered-out
values gives the same list. -/
lemma filter_map_congr_or {α β : Type} (p : β → Bool) (f g : α → β)
    (l : List α)
    (h : ∀ a ∈ l, f a = g a ∨ (p (f a) = false ∧ p (g a) = false)) :
    (l.map f).filter p = (l.map g).filter p := by
  induction l with
  | nil => rfl
  | cons a l ih =>
    simp only [List.map_cons, List.filter_cons]
    rcases h a (List.mem_cons_self _ _) with he | ⟨h1, h2⟩
    · rw [he, ih (fun b hb => h b (List.mem_cons_of_mem _ hb))]
    · rw [h1, h2, ih (fun b hb => h b (List.mem_cons_of_mem _ hb))]
      simp

lemma filter_flatten_congr {α β : Type} (p : β → Bool) (F G : α → List β)
    (l : List α) (h : ∀ a ∈ l, (F a).filter p = (G a).filter p) :
    ((l.map F).flatten).filter p = ((l.map G).flatten).filter p := by
  induction l with
  | nil => rfl
  | cons a l ih =>
    simp only [List.map_cons, List.flatten_cons, List.filter_append]
    rw [h a (List.mem_cons_self _ _),
      ih (fun b hb => h b (List.mem_cons_of_mem _ hb))]

/-- An agent's real-neighbor list is unchanged between two states that agree
on the agent's record, the dimension, every object's type, and whose grids
differ only at cells holding empty lots before and after. -/
lemma getNeighbors_eq_of (t s : Neighborhood) (i : AgentId)
    (hoi : t.occ i = s.occ i) (hdim : t.dimension = s.dimension)
    (htypes : ∀ j, (t.occ j).mytype = (s.occ j).mytype)
    (hlots : ∀ x y : Int, t.lots x y = s.lots x y ∨
      ((s.occ (t.lots x y)).mytype = EMPTYLOT ∧
        (s.occ (s.lots x y)).mytype = EMPTYLOT)) :
    getNeighbors t i = getNeighbors s i := by
  have hwrap : ∀ z, wrap t z = wrap s z := by
    intro z
    unfold wrap
    rw [hdim]
  have hpred : (fun lot => decide ((t.occ lot).mytype ≠ EMPTYLOT ∧ lot ≠ i)) =
      (fun lot => decide ((s.occ lot).mytype ≠ EMPTYLOT ∧ lot ≠ i)) := by
    funext lot
    rw [htypes lot]
  unfold getNeighbors getNeighborhood
  dsimp only
  rw [hoi, hpred]
  simp only [hwrap]
  rw [flatMap_id_eq_flatten, flatMap_id_eq_flatten]
  apply filter_flatten_congr
  intro a _
  apply filter_map_congr_or
  intro b _
  rcases hlots a b with he | ⟨h1, h2⟩
  · exact Or.inl he
  · refine Or.inr ⟨?_, ?_⟩
    · simp only [decide_eq_false_iff_not]
      rintro ⟨hc, -⟩
      exact hc h1
    · simp only [decide_eq_false_iff_not]
      rintro ⟨hc, -⟩
      exact hc h2

/-- `isUnhappy` is determined by the agent's record, its neighbor list and
its same-neighbor sublist. -/
lemma isUnhappy_congr (t s : Neighborhood) (i : AgentId)
    (hoi : t.occ i = s.occ i) (hnb : getNeighbors t i = getNeighbors s i)
    (hsame : getSameNeighbors t i (getNeighbors s i) =
      getSameNeighbors s i (getNeighbors s i)) :
    isUnhappy t i = isUnhappy s i := by
  have hps : percentSame t i (getNeighbors s i) =
      percentSame s i (getNeighbors s i) := by
    unfold percentSame
    rw [hsame]
  unfold isUnhappy
  dsimp only
  rw [hoi, hnb, hps]

/-- C4: when no registered agent is unhappy (and the `runOnce` flag has its
invariant value `False`), `move` changes no agent's record (in particular no
coordinates), leaves the occupant type stored at every cell unchanged (only
empty lots trade places), keeps every agent's neighbor list, and leaves
`getStats` unchanged. -/
theorem c4_move_noop_when_no_unhappy (pick : Nat → Nat × Nat)
    (s : Neighborhood) (h : WF s) (hro : s.runOnce = false)
    (hno : unhappyList s = []) :
    (∀ a ∈ s.agents, (move pick s).occ a = s.occ a) ∧
    (∀ x y : Int, ((move pick s).occ ((move pick s).lots x y)).mytype =
      (s.occ (s.lots x y)).mytype) ∧
    (∀ a ∈ s.agents, getNeighbors (move pick s) a = getNeighbors s a) ∧
    getStats (move pick s) = getStats s := by
  have hWF := h
  obtain ⟨hpos, hnd, hlocs, htype, hcell⟩ := h
  obtain ⟨M1, M2, M3, M4, M5, M6, M7, M8⟩ :=
    moveLoop_main pick (movePool s).length 0 (movePool s) (getUnhappyAgents s)
      le_rfl (movePool_nodup hWF) hpos (movePool_located hWF)
  have hagents : (move pick s).agents = s.agents :=
    (moveLoop_const pick (movePool s).length 0 (movePool s)
      (getUnhappyAgents s)).1
  have hdim : (move pick s).dimension = s.dimension :=
    (moveLoop_const pick (movePool s).length 0 (movePool s)
      (getUnhappyAgents s)).2.1
  have hruno : (move pick s).runOnce = s.runOnce :=
    (moveLoop_const pick (movePool s).length 0 (movePool s)
      (getUnhappyAgents s)).2.2.1
  have hcore : ∀ j, coreEq ((move pick s).occ j) (s.occ j) :=
    (moveLoop_const pick (movePool s).length 0 (movePool s)
      (getUnhappyAgents s)).2.2.2.2
  have hpoolE : ∀ m ∈ movePool s, (s.occ m).mytype = EMPTYLOT := by
    intro m hm
    unfold movePool at hm
    rw [hno, List.nil_append] at hm
    unfold emptyLotsList at hm
    exact of_decide_eq_true (List.mem_filter.mp hm).2
  have hnotpool : ∀ a ∈ s.agents, a ∉ movePool s := by
    intro a ha hmem
    exact htype a ha (hpoolE a hmem)
  have haocc : ∀ a ∈ s.agents, (move pick s).occ a = s.occ a :=
    fun a ha => M3 a (hnotpool a ha)
  have hlots_or : ∀ x y : Int, (move pick s).lots x y = s.lots x y ∨
      ((s.occ ((move pick s).lots x y)).mytype = EMPTYLOT ∧
        (s.occ (s.lots x y)).mytype = EMPTYLOT) := by
    intro x y
    rcases M8 x y with h1 | ⟨h1, h2⟩
    · exact Or.inl h1
    · exact Or.inr ⟨hpoolE _ h1, hpoolE _ h2⟩
  have hcelltype : ∀ x y : Int,
      ((move pick s).occ ((move pick s).lots x y)).mytype =
        (s.occ (s.lots x y)).mytype := by
    intro x y
    rw [(hcore _).1]
    rcases hlots_or x y with h1 | ⟨h1, h2⟩
    · rw [h1]
    · rw [h1, h2]
  have hnb : ∀ a ∈ s.agents, getNeighbors (move pick s) a = getNeighbors s a := by
    intro a ha
    exact getNeighbors_eq_of (move pick s) s a (haocc a ha) hdim
      (fun j => (hcore j).1) hlots_or
  have hmem_nb : ∀ a, ∀ nb ∈ getNeighbors s a, (s.occ nb).mytype ≠ EMPTYLOT := by
    intro a nb hnb'
    unfold getNeighbors at hnb'
    exact (of_decide_eq_true (List.mem_filter.mp hnb').2).1
  have hsame : ∀ a ∈ s.agents,
      getSameNeighbors (move pick s) a (getNeighbors s a) =
        getSameNeighbors s a (getNeighbors s a) := by
    intro a ha
    unfold getSameNeighbors
    apply List.filter_congr
    intro nb hnb'
    have hnbocc : (move pick s).occ nb = s.occ nb := by
      apply M3
      intro hmem
      exact hmem_nb a nb hnb' (hpoolE nb hmem)
    rw [haocc a ha, hnbocc]
  have hunh : ∀ a ∈ s.agents, isUnhappy (move pick s) a = isUnhappy s a := by
    intro a ha
    exact isUnhappy_congr (move pick s) s a (haocc a ha) (hnb a ha) (hsame a ha)
  have hulist : unhappyList (move pick s) = unhappyList s := by
    unfold unhappyList
    rw [hagents]
    exact List.filter_congr hunh
  have hcount : ∀ a ∈ s.agents,
      countNeighbors (move pick s) a = countNeighbors s a := by
    intro a ha
    unfold countNeighbors
    dsimp only
    rw [hnb a ha, hsame a ha]
  have hrom : (move pick s).runOnce = false := hruno.trans hro
  have hpu : percentUnhappy (move pick s) = percentUnhappy s := by
    unfold percentUnhappy
    rw [hrom, hro]
    simp only [Bool.false_eq_true, if_false]
    rw [hulist, hagents]
  have hpsim : percentSimilar (move pick s) = percentSimilar s := by
    have hmap : s.agents.map (fun agent => countNeighbors (move pick s) agent) =
        s.agents.map (fun agent => countNeighbors s agent) :=
      List.map_congr_left hcount
    unfold percentSimilar
    rw [hagents, hmap]
  refine ⟨haocc, hcelltype, hnb, ?_⟩
  unfold getStats
  rw [hpu, hpsim]

unseal Rat.inv Rat.mul Rat.add Rat.sub in
/-- Witness for C4 on the concrete example grid (all three agents happy). -/
theorem c4_move_noop_when_no_unhappy_witness :
    WF exA ∧ exA.runOnce = false ∧ unhappyList exA = [] ∧
    getStats (move (fun _ => (0, 0)) exA) = getStats exA :=
  ⟨by decide, by decide, by decide,
    (c4_move_noop_when_no_unhappy (fun _ => (0, 0)) exA (by decide) (by decide)
      (by decide)).2.2.2⟩

/-- C9: placing a new agent at a cell already holding a registered agent
silently overwrites the occupant mapping there: the new object is stored at
the cell, the old agent stays registered with its old record, and no cell of
the grid maps to the old agent any more — the grid/agents consistency
invariant breaks through the public placement interface without any error. -/
theorem c9_putAgent_overwrites (s : Neighborhood) (hWF : WF s) (a : AgentId)
    (ha : a ∈ s.agents) (b : AgentId) (hb : b ∉ s.agents) (d : AgentData)
    (hdx : d.x = (s.occ a).x) (hdy : d.y = (s.occ a).y) :
    (newAgent s b d).lots (s.occ a).x (s.occ a).y = b ∧
    a ∈ (newAgent s b d).agents ∧
    (newAgent s b d).occ a = s.occ a ∧
    (∀ x < s.dimension, ∀ y < s.dimension,
      (newAgent s b d).lots (x : Int) (y : Int) ≠ a) := by
  obtain ⟨hpos, hnd, hlocs, htype, hcell⟩ := hWF
  have hba : b ≠ a := fun hc => hb (hc ▸ ha)
  have hab : a ≠ b := fun hc => hba hc.symm
  have hupd : (Function.update s.occ b d) b = d := Function.update_same ..
  have hlots : ∀ x y : Int, (newAgent s b d).lots x y =
      if x = (s.occ a).x ∧ y = (s.occ a).y then b else s.lots x y := by
    intro x y
    show (if x = ((Function.update s.occ b d) b).x ∧
        y = ((Function.update s.occ b d) b).y then b else s.lots x y) = _
    rw [hupd, hdx, hdy]
  refine ⟨?_, ?_, ?_, ?_⟩
  · rw [hlots, if_pos ⟨rfl, rfl⟩]
  · show a ∈ s.agents ++ [b]
    exact List.mem_append_left _ ha
  · show (Function.update s.occ b d) a = s.occ a
    exact Function.update_noteq hab d s.occ
  · intro x hx y hy heq
    rw [hlots] at heq
    by_cases hc : (x : Int) = (s.occ a).x ∧ (y : Int) = (s.occ a).y
    · rw [if_pos hc] at heq
      exact hba heq
    · rw [if_neg hc] at heq
      have hcoord := hpos x hx y hy
      rw [heq] at hcoord
      exact hc ⟨hcoord.1.symm, hcoord.2.symm⟩

/-- Witness for C9: a fresh agent (identity 28) is placed at `(0,3)`, the
cell of registered agent 27. -/
theorem c9_putAgent_overwrites_witness :
    WF exA ∧ 27 ∈ exA.agents ∧ 28 ∉ exA.agents ∧
    (newAgent exA 28
      (discreteAgentData AKind.likesSame (Sum.inl "O") (2/5) 0 3)).lots
      (exA.occ 27).x (exA.occ 27).y = 28 ∧
    27 ∈ (newAgent exA 28
      (discreteAgentData AKind.likesSame (Sum.inl "O") (2/5) 0 3)).agents ∧
    (newAgent exA 28
      (discreteAgentData AKind.likesSame (Sum.inl "O") (2/5) 0 3)).occ 27 =
      exA.occ 27 :=
  ⟨by decide, by decide, by decide,
    (c9_putAgent_overwrites exA (by decide) 27 (by decide) 28 (by decide)
      (discreteAgentData AKind.likesSame (Sum.inl "O") (2/5) 0 3)
      (by decide) (by decide)).1,
    (c9_putAgent_overwrites exA (by decide) 27 (by decide) 28 (by decide)
      (discreteAgentData AKind.likesSame (Sum.inl "O") (2/5) 0 3)
      (by decide) (by decide)).2.1,
    (c9_putAgent_overwrites exA (by decide) 27 (by decide) 28 (by decide)
      (discreteAgentData AKind.likesSame (Sum.inl "O") (2/5) 0 3)
      (by decide) (by decide)).2.2.1⟩

lemma percentUnhappy_nonneg (s : Neighborhood) : 0 ≤ percentUnhappy s := by
  unfold percentUnhappy
  exact div_nonneg (Nat.cast_nonneg _) (Nat.cast_nonneg _)

lemma round4_nonneg {q : ℚ} (h : 0 ≤ q) : 0 ≤ round4 q := by
  unfold round4
  apply div_nonneg _ (by norm_num)
  have h2 : (0 : ℤ) ≤ round (q * 10000) := by
    rw [round_eq]
    apply Int.le_floor.mpr
    push_cast
    nlinarith
  exact_mod_cast h2

lemma getStats_fst_nonneg (s : Neighborhood) : 0 ≤ (getStats s).1 :=
  round4_nonneg (percentUnhappy_nonneg s)

lemma runAux_succ (pick : Nat → Nat → Nat × Nat) (s : Neighborhood)
    (n t : Nat) :
    runAux pick s (n + 1) t = (t, getStats s) ::
      (if (getStats s).1 = 0 then []
        else runAux pick (move (pick t) s) n (t + 1)) := rfl

/-- Full characterisation of the `run` loop history starting at tick `t`:
at most `n` entries, consecutive tick indices, each entry the pre-move
statistics of the state reached at its tick, all entries but the last
recording nonzero unhappiness, and termination either by tick exhaustion or
at a recorded zero. -/
lemma runAux_spec (pick : Nat → Nat → Nat × Nat) :
    ∀ n s t,
      (runAux pick s n t).length ≤ n ∧
      (runAux pick s n t).map Prod.fst =
        List.range' t (runAux pick s n t).length ∧
      (∀ k (hk : k < (runAux pick s n t).length),
        (runAux pick s n t).get ⟨k, hk⟩ =
          (t + k, getStats (stateFrom pick s t k))) ∧
      (∀ k, k + 1 < (runAux pick s n t).length →
        ((runAux pick s n t).getD k (0, (0, 0))).2.1 ≠ 0) ∧
      ((runAux pick s n t).length = n ∨
        (0 < (runAux pick s n t).length ∧
          ((runAux pick s n t).getLastD (0, (0, 0))).2.1 = 0)) := by
  intro n
  induction n with
  | zero =>
    intro s t
    refine ⟨Nat.le_refl 0, rfl, ?_, ?_, Or.inl rfl⟩
    · intro k hk
      exact absurd hk (by simp [runAux])
    · intro k hk
      exact absurd hk (by simp [runAux])
  | succ n ih =>
    intro s t
    rw [runAux_succ]
    by_cases hz : (getStats s).1 = 0
    · rw [if_pos hz]
      refine ⟨by simp, ?_, ?_, ?_, Or.inr ⟨by simp, hz⟩⟩
      · simp [List.range'_succ]
      · intro k hk
        have hk0 : k = 0 := by
          simp only [List.length_cons, List.length_nil] at hk
          omega
        subst hk0
        show (t, getStats s) = (t + 0, getStats (stateFrom pick s t 0))
        rw [Nat.add_zero]
        rfl
      · intro k hk
        simp only [List.length_cons, List.length_nil] at hk
        omega
    · rw [if_neg hz]
      obtain ⟨R1, R2, R3, R4, R5⟩ := ih (move (pick t) s) (t + 1)
      refine ⟨by simpa using R1, ?_, ?_, ?_, ?_⟩
      · simp only [List.map_cons, List.length_cons, List.range'_succ]
        rw [R2]
      · intro k hk
        match k with
        | 0 =>
          show (t, getStats s) = (t + 0, getStats (stateFrom pick s t 0))
          rw [Nat.add_zero]
          rfl
        | k + 1 =>
          have hk' : k < (runAux pick (move (pick t) s) n (t + 1)).length := by
            simpa using hk
          show (runAux pick (move (pick t) s) n (t + 1)).get ⟨k, hk'⟩ =
            (t + (k + 1), getStats (stateFrom pick s t (k + 1)))
          rw [R3 k hk']
          show ((t + 1) + k, _) = (t + (k + 1), _)
          rw [show (t + 1) + k = t + (k + 1) by omega]
          rfl
      · intro k hk
        match k with
        | 0 =>
          intro hc
          exact hz hc
        | k + 1 =>
          have hk' : k + 1 < (runAux pick (move (pick t) s) n (t + 1)).length := by
            simpa using hk
          show ((runAux pick (move (pick t) s) n (t + 1)).getD k
            (0, (0, 0))).2.1 ≠ 0
          exact R4 k hk'
      · rcases R5 with h | ⟨hpos', hlast⟩
        · left
          simp [h]
        · right
          refine ⟨by simp, ?_⟩
          rcases hrest : runAux pick (move (pick t) s) n (t + 1) with _ | ⟨r, rs⟩
          · rw [hrest] at hpos'
            exact absurd hpos' (by simp)
          · rw [hrest] at hlast
            show ((r :: rs).getLastD (t, getStats s)).2.1 = 0
            rw [List.getLastD_cons] at hlast
            rw [List.getLastD_cons]
            exact hlast

/-- C6: for a grid with at least one registered agent and `ticks ≥ 1`, the
`run` history has consecutive indices `0, 1, ...`, length at most `ticks`,
records at index `k` the pre-move `getStats` of the state after `k` moves,
has strictly positive recorded unhappiness at every entry but possibly the
last, and ends either after `ticks` entries or at the first entry recording
zero unhappiness. -/
theorem c6_run_history (pick : Nat → Nat → Nat × Nat) (s : Neighborhood)
    (ticks : Nat) (hticks : 1 ≤ ticks) (hag : s.agents ≠ []) :
    (run pick s ticks).length ≤ ticks ∧
    (run pick s ticks).map Prod.fst = List.range (run pick s ticks).length ∧
    (∀ k (hk : k < (run pick s ticks).length),
      (run pick s ticks).get ⟨k, hk⟩ = (k, getStats (stateAt pick s k))) ∧
    (∀ k, k + 1 < (run pick s ticks).length →
      0 < ((run pick s ticks).getD k (0, (0, 0))).2.1) ∧
    ((run pick s ticks).length = ticks ∨
      ((run pick s ticks).getLastD (0, (0, 0))).2.1 = 0) := by
  obtain ⟨R1, R2, R3, R4, R5⟩ := runAux_spec pick ticks s 0
  refine ⟨R1, ?_, ?_, ?_, ?_⟩
  · rw [List.range_eq_range']
    exact R2
  · intro k hk
    have h := R3 k hk
    rwa [Nat.zero_add] at h
  · intro k hk
    have hne := R4 k hk
    have hk' : k < (runAux pick s ticks 0).length := Nat.lt_of_succ_lt hk
    have hgetD : (runAux pick s ticks 0).getD k (0, (0, 0)) =
        (runAux pick s ticks 0).get ⟨k, hk'⟩ := List.getD_eq_get _ _ hk'
    show 0 < ((runAux pick s ticks 0).getD k (0, (0, 0))).2.1
    rw [hgetD, R3 k hk'] at hne ⊢
    exact lt_of_le_of_ne (getStats_fst_nonneg _) (Ne.symm hne)
  · rcases R5 with h | ⟨_, h⟩
    · exact Or.inl h
    · exact Or.inr h

/-- Witness for C6 on the concrete example grid (converges at tick 0). -/
theorem c6_run_history_witness :
    1 ≤ 3 ∧ exA.agents ≠ [] ∧
    (run (fun _ _ => (0, 0)) exA 3).length ≤ 3 ∧
    (run (fun _ _ => (0, 0)) exA 3).map Prod.fst =
      List.range (run (fun _ _ => (0, 0)) exA 3).length :=
  ⟨by decide, by decide,
    (c6_run_history (fun _ _ => (0, 0)) exA 3 (by decide) (by decide)).1,
    (c6_run_history (fun _ _ => (0, 0)) exA 3 (by decide) (by decide)).2.1⟩

/-- C7: `wrap` maps any integer whose offset from `[0, dimension)` is at most
one full dimension into `[0, dimension)` by a single wraparound, preserving
the congruence class modulo `dimension`. -/
theorem c7_wrap_range_congruence (s : Neighborhood) (x : Int)
    (h1 : -(s.dimension : Int) ≤ x) (h2 : x ≤ 2 * (s.dimension : Int) - 1) :
    (0 ≤ wrap s x ∧ wrap s x < (s.dimension : Int)) ∧
    Int.ModEq (s.dimension : Int) (wrap s x) x := by
  unfold wrap
  constructor
  · split_ifs with ha hb <;> constructor <;> omega
  · split_ifs with ha hb
    · exact Int.ModEq.symm (Int.modEq_iff_dvd.mpr ⟨1, by ring⟩)
    · exact Int.ModEq.symm (Int.modEq_iff_dvd.mpr ⟨-1, by ring⟩)
    · exact Int.ModEq.refl x

theorem c7_wrap_range_congruence_witness :
    (-((initNeighborhood 10).dimension : Int) ≤ -3 ∧
      (-3 : Int) ≤ 2 * ((initNeighborhood 10).dimension : Int) - 1) ∧
    ((0 ≤ wrap (initNeighborhood 10) (-3) ∧
      wrap (initNeighborhood 10) (-3) < ((initNeighborhood 10).dimension : Int)) ∧
    Int.ModEq ((initNeighborhood 10).dimension : Int)
      (wrap (initNeighborhood 10) (-3)) (-3)) :=
  ⟨⟨by decide, by decide⟩,
    c7_wrap_range_congruence (initNeighborhood 10) (-3) (by decide) (by decide)⟩

/-- C2: the base class (and `EmptyLot`) is never unhappy; a likes-same agent
(discrete or continuous) is unhappy exactly when it has real neighbors and
its similarity fraction is below its preference; a likes-others agent exactly
when it has real neighbors and its dissimilarity fraction is below its
preference; and an agent whose whole view block holds only empty lots and
itself is not unhappy, whatever its class and preference. -/
theorem c2_isUnhappy_rules (s : Neighborhood) (i : AgentId) :
    (((s.occ i).kind = AKind.base ∨ (s.occ i).kind = AKind.emptyLot) →
      isUnhappy s i = false) ∧
    (((s.occ i).kind = AKind.likesSame ∨ (s.occ i).kind = AKind.contLikesSame) →
      (isUnhappy s i = true ↔ getNeighbors s i ≠ [] ∧
        percentSame s i (getNeighbors s i) < (s.occ i).preference)) ∧
    (((s.occ i).kind = AKind.likesOthers ∨ (s.occ i).kind = AKind.contLikesOthers) →
      (isUnhappy s i = true ↔ getNeighbors s i ≠ [] ∧
        1 - percentSame s i (getNeighbors s i) < (s.occ i).preference)) ∧
    ((∀ lot ∈ (getNeighborhood s (s.occ i).x (s.occ i).y
        (s.occ i).neighborRadius).flatMap id,
        (s.occ lot).mytype = EMPTYLOT ∨ lot = i) →
      isUnhappy s i = false) := by
  refine ⟨?_, ?_, ?_, ?_⟩
  · rintro (h | h) <;> · unfold isUnhappy; rw [h]
  · rintro (h | h) <;>
    · unfold isUnhappy
      rw [h]
      by_cases hn : getNeighbors s i = [] <;> simp [hn]
  · rintro (h | h) <;>
    · unfold isUnhappy
      rw [h]
      by_cases hn : getNeighbors s i = [] <;> simp [hn]
  · intro h
    have hn : getNeighbors s i = [] := by
      unfold getNeighbors
      rw [List.filter_eq_nil_iff]
      intro lot hlot
      rcases h lot hlot with h1 | h1 <;> simp [h1]
    cases hk : (s.occ i).kind <;> · unfold isUnhappy; rw [hk] <;> simp [hn]

theorem c2_isUnhappy_rules_witness :
    (((exA.occ 27).kind = AKind.likesSame ∨
        (exA.occ 27).kind = AKind.contLikesSame) ∧
      (isUnhappy exA 27 = true ↔ getNeighbors exA 27 ≠ [] ∧
        percentSame exA 27 (getNeighbors exA 27) < (exA.occ 27).preference)) ∧
    ((∀ lot ∈ (getNeighborhood exA (exA.occ 27).x (exA.occ 27).y
        (exA.occ 27).neighborRadius).flatMap id,
        (exA.occ lot).mytype = EMPTYLOT ∨ lot = 27) ∧
      isUnhappy exA 27 = false) :=
  ⟨⟨by decide, (c2_isUnhappy_rules exA 27).2.1 (by decide)⟩,
    ⟨by decide, (c2_isUnhappy_rules exA 27).2.2.2 (by decide)⟩⟩

unseal Rat.inv Rat.mul Rat.add Rat.sub in
/-- C5: `percentSimilar` is the population-weighted aggregate — the sum of
same-type-neighbor counts over all agents divided by the sum of all their
real-neighbor counts — and it differs from the unweighted mean of the
per-agent `percentSame` values on the example grid. -/
theorem c5_percentSimilar_aggregate :
    (∀ s : Neighborhood,
      0 < (s.agents.map (fun a => (getNeighbors s a).length)).sum →
      percentSimilar s =
        ((s.agents.map (fun a =>
          (getSameNeighbors s a (getNeighbors s a)).length)).sum : ℚ) /
        ((s.agents.map (fun a => (getNeighbors s a).length)).sum : ℚ)) ∧
    percentSimilar exA ≠ meanPercentSame exA := by
  constructor
  · intro s _
    unfold percentSimilar countNeighbors
    simp only [List.map_map]
    rfl
  · decide

unseal Rat.inv Rat.mul Rat.add Rat.sub in
/-- Witness for C5 at the example grid. -/
theorem c5_percentSimilar_aggregate_witness :
    0 < (exA.agents.map (fun a => (getNeighbors exA a).length)).sum ∧
    percentSimilar exA =
      ((exA.agents.map (fun a =>
        (getSameNeighbors exA a (getNeighbors exA a)).length)).sum : ℚ) /
      ((exA.agents.map (fun a => (getNeighbors exA a).length)).sum : ℚ) :=
  ⟨by decide, c5_percentSimilar_aggregate.1 exA (by decide)⟩

/-- C8: with split fractions summing above `1.0` the population helpers do
not raise any error — they return the plain string
`'Split values must add to 1.0.'` instead of a `Neighborhood`, so the caller
gets no structurally detectable failure (contrary to the specified
`ConfigurationError`). -/
theorem c8_split_guard_returns_string :
    likesSameNeighborhood (fun _ => 0) 10 (3/10) (Sum.inl "X") (Sum.inl "O")
      (3/5) (3/5) = Sum.inl errSplit ∧
    likesOthersNeighborhood (fun _ => 0) 10 (2/5) (Sum.inl "X") (Sum.inl "O")
      (3/5) (3/5) = Sum.inl errSplit := by
  constructor
  · unfold likesSameNeighborhood
    rw [if_pos (by norm_num)]
  · unfold likesOthersNeighborhood
    rw [if_pos (by norm_num)]

/-- C10: `runOnce` starts `False` and no operation ever sets it, so
`percentUnhappy` always takes the recomputing branch: on any state with
`runOnce = False` and at least one agent it returns the freshly recomputed
unhappy count divided by the agent count. -/
theorem c10_runOnce_invariant :
    (∀ d, (initNeighborhood d).runOnce = false) ∧
    (∀ s i, (putAgent s i).runOnce = s.runOnce) ∧
    (∀ s i d, (newAgent s i d).runOnce = s.runOnce) ∧
    (∀ s, (getUnhappyAgents s).runOnce = s.runOnce) ∧
    (∀ s i1 i2, (swap s i1 i2).runOnce = s.runOnce) ∧
    (∀ pick step fuel pool s,
      (moveLoop pick step fuel pool s).1.runOnce = s.runOnce) ∧
    (∀ pick s, (move pick s).runOnce = s.runOnce) ∧
    (∀ s : Neighborhood, s.runOnce = false → s.agents ≠ [] →
      percentUnhappy s = ((unhappyList s).length : ℚ) / (s.agents.length : ℚ)) := by
  refine ⟨fun d => rfl, fun s i => rfl, fun s i d => rfl, fun s => rfl,
    fun s i1 i2 => rfl,
    fun pick step fuel pool s => (moveLoop_const pick fuel step pool s).2.2.1,
    fun pick s => ?_, fun s h _ => ?_⟩
  · exact (moveLoop_const pick
      ((getUnhappyAgents s).unhappyagents ++
        emptyLotsList (getUnhappyAgents s)).length 0
      ((getUnhappyAgents s).unhappyagents ++
        emptyLotsList (getUnhappyAgents s)) (getUnhappyAgents s)).2.2.1
  · unfold percentUnhappy
    rw [h]
    rfl

theorem c10_runOnce_invariant_witness :
    exA.runOnce = false ∧ exA.agents ≠ [] ∧
    percentUnhappy exA = ((unhappyList exA).length : ℚ) / (exA.agents.length : ℚ) :=
  ⟨by decide, by decide,
    c10_runOnce_invariant.2.2.2.2.2.2.2 exA (by decide) (by decide)⟩

end Schelling
